import Mathlib

/-!
Verification development for the bytescout-nextjs Auto API middleware.

The definitions below are a shallow embedding of the TypeScript source
(`src/middleware.ts` and `src/index.ts` of the repository): the module-level
mutable pair `(cache, totalCacheSize)` becomes an explicit `CacheState`
threaded through the operations, JS `Map` iteration order (insertion order,
with `set` on an existing key keeping the original position) is modelled by
an association list, JS numbers are modelled by `Int` (and by `Rat` where a
runtime value may be a non-integer), and the external collaborators
(the WHATWG URL resolver, `JSON.stringify`, the cheerio HTML parser and the
network) are abstract parameters of the model.
-/

namespace ByteScout

/-- Error kinds of the SDK (enum `AutoApiErrorType` in `types.ts`). -/
inductive AutoApiErrorType where
  | INVALID_CONFIG
  | FETCH_ERROR
  | PARSE_ERROR
  | CACHE_ERROR
  | TIMEOUT_ERROR
deriving DecidableEq, Repr

/-- The `AutoApiError` class of `types.ts`: message, kind, optional HTTP
status code, and the message of an optional wrapped cause. -/
structure AutoApiError where
  message : String
  type : AutoApiErrorType
  statusCode : Option Int
  cause : Option String
deriving DecidableEq, Repr

/-- A raised JS value: either a typed `AutoApiError` or a generic error
(carrying only its message), as distinguished by `instanceof` checks. -/
inductive Thrown where
  | api (e : AutoApiError)
  | generic (message : String)
deriving DecidableEq, Repr

/-- One heading record as produced by the extractor. -/
structure Heading where
  level : Nat
  text : String
deriving DecidableEq, Repr

/-- The `PageData` interface of `types.ts` (optional fields as `Option`). -/
structure PageData where
  path : String
  timestamp : String
  title : String
  h1 : String
  html : Option String
  receiverUsername : Option String
  contentLength : Option Nat
  extractedAt : Option Int
  statusCode : Option Nat
  headings : Option (List Heading)
  metaDescription : Option String
deriving DecidableEq, Repr

/-- The `CachedPageData` interface: stored data, insertion timestamp
(epoch millis) and recorded size in bytes. -/
structure CachedPageData where
  data : PageData
  timestamp : Int
  size : Int
deriving DecidableEq, Repr

/-- The module-level mutable state of `middleware.ts`: the `Map` (as an
insertion-ordered association list) together with `totalCacheSize`. -/
structure CacheState where
  entries : List (String × CachedPageData)
  totalCacheSize : Int
deriving DecidableEq, Repr

/-- The empty cache, the state at process start. -/
def emptyCache : CacheState := { entries := [], totalCacheSize := 0 }

/-- `Map.prototype.get`: first binding of the key (keys are unique). -/
def mapGet (k : String) : List (String × CachedPageData) → Option CachedPageData
  | [] => none
  | (k2, v) :: rest => if k2 == k then some v else mapGet k rest

/-- `Map.prototype.set`: replace in place when the key is present (JS `Map`
keeps the original insertion position), append otherwise. -/
def mapSet (k : String) (v : CachedPageData) (es : List (String × CachedPageData)) :
    List (String × CachedPageData) :=
  if es.any (fun p => p.1 == k) then
    es.map (fun p => if p.1 == k then (k, v) else p)
  else
    es ++ [(k, v)]

/-- `Map.prototype.delete`: drop the binding of the key. -/
def mapDelete (k : String) (es : List (String × CachedPageData)) :
    List (String × CachedPageData) :=
  es.filter (fun p => !(p.1 == k))

/-- Sum of the recorded `size` fields of a list of cache entries. -/
def sumSizes : List (String × CachedPageData) → Int
  | [] => 0
  | e :: rest => e.2.size + sumSizes rest

/-! ### JS string primitives (modelled on `List Char`) -/

/-- JS `String.prototype.startsWith`. -/
def strStartsWith (s pre : String) : Bool := pre.data.isPrefixOf s.data

/-- JS `String.prototype.endsWith`. -/
def strEndsWith (s suf : String) : Bool := suf.data.isSuffixOf s.data

/-- JS `str.slice(0, -n)`: all but the last `n` characters. -/
def strDropRight (s : String) (n : Nat) : String :=
  ⟨s.data.take (s.data.length - n)⟩

/-- JS `String.prototype.trim`: strip whitespace from both ends. -/
def jsTrim (s : String) : String :=
  ⟨((s.data.dropWhile Char.isWhitespace).reverse.dropWhile Char.isWhitespace).reverse⟩

/-- Remove the first occurrence of `pat` from a character list (the effect of
JS `s.replace(pat, "")` with a string pattern). -/
def listRemoveFirst (pat : List Char) : List Char → List Char
  | [] => []
  | c :: rest =>
    if pat.isPrefixOf (c :: rest) then List.drop pat.length (c :: rest)
    else c :: listRemoveFirst pat rest

/-- JS `s.replace(pat, "")` with a plain-string pattern: removes the first
occurrence of `pat`, or returns `s` unchanged when `pat` does not occur. -/
def jsRemoveFirst (s pat : String) : String := ⟨listRemoveFirst pat.data s.data⟩

/-- The character class of the regex `/[<>:"|?*]/` used by `isValidPath`. -/
def containsDangerousChar (s : String) : Bool :=
  s.data.any (fun c =>
    c == '<' || c == '>' || c == ':' || c == '"' || c == '|' || c == '?' || c == '*')

/-! ### Path classification (`extractPagePath`, `isValidPath`, `isPathExcluded`) -/

/-- `extractPagePath` of `middleware.ts`: strip the first occurrence of the
prefix, re-anchor at `/`, and map the root to itself. -/
def extractPagePath (pathname : String) ( apiPrefix : String) : String :=
  let pagePath := jsRemoveFirst pathname apiPrefix
  let pagePath := if !(strStartsWith pagePath "/") then "/" ++ pagePath else pagePath
  if pagePath == "/" then "/" else pagePath

/-- `isValidPath` of `middleware.ts`: starts with `/`, no character from
`<>:"|?*`, and at most 2000 characters. -/
def isValidPath (path : String) : Bool :=
  strStartsWith path "/" && !(containsDangerousChar path) &&
    decide (path.data.length ≤ 2000)

/-- `isPathExcluded` of `middleware.ts`: a pattern ending in `/*` matches by
`startsWith` against the pattern with its last two characters removed
(`slice(0, -2)`); any other pattern matches by string equality. -/
def isPathExcluded (path : String) (excludePaths : List String) : Bool :=
  excludePaths.any (fun excludePath =>
    if strEndsWith excludePath "/*" then
      strStartsWith path (strDropRight excludePath 2)
    else
      path == excludePath)

/-! ### Cache operations (`middleware.ts`) -/

/-- `getCachedData`: lazy-expiry lookup. An entry is expired when
`now - entry.timestamp > cacheDuration * 1000` (strict); an expired entry
is deleted and its size subtracted from the running total. -/
def getCachedData (pagePath : String) (cacheDuration : Int) (now : Int)
    (st : CacheState) : Option PageData × CacheState :=
  match mapGet pagePath st.entries with
  | none => (none, st)
  | some entry =>
    if now - entry.timestamp > cacheDuration * 1000 then
      (none, { entries := mapDelete pagePath st.entries,
               totalCacheSize := st.totalCacheSize - entry.size })
    else
      (some entry.data, st)

/-- The eviction loop of `cachePageData`: while the running total plus the
incoming size exceeds the limit and the map is non-empty, delete the first
(oldest-inserted) entry and subtract its recorded size. -/
def evictEntries (dataSize maxCacheSize : Int) :
    List (String × CachedPageData) → Int → List (String × CachedPageData) × Int
  | [], total => ([], total)
  | e :: rest, total =>
    if total + dataSize > maxCacheSize then
      evictEntries dataSize maxCacheSize rest (total - e.2.size)
    else
      (e :: rest, total)

/-- The size computed by `shouldCacheData`/`cachePageData`:
`(data.html?.length || 0) + JSON.stringify(data).length`, with the length of
the JSON serialization supplied as the abstract function `stringifyLen`
(external JS runtime behavior). -/
def dataSizeOf (stringifyLen : PageData → Nat) (data : PageData) : Int :=
  ((data.html.getD "").data.length : Int) + (stringifyLen data : Int)

/-- `shouldCacheData`: admit an entry only when its computed size is within
`maxCacheSize` (checked by the orchestrator before `cachePageData`). -/
def shouldCacheData (stringifyLen : PageData → Nat) (data : PageData)
    (maxCacheSize : Int) : Bool :=
  decide (dataSizeOf stringifyLen data ≤ maxCacheSize)

/-- `cachePageData`: evict in insertion order until there is room, then
insert (or replace) the entry and add the new size to the running total.
Note the source adds `dataSize` without subtracting the size of an entry it
replaces. -/
def cachePageData (stringifyLen : PageData → Nat) (pagePath : String)
    (data : PageData) (now : Int) (maxCacheSize : Int) (st : CacheState) :
    CacheState :=
  let dataSize := dataSizeOf stringifyLen data
  let (es, total) := evictEntries dataSize maxCacheSize st.entries st.totalCacheSize
  { entries := mapSet pagePath { data := data, timestamp := now, size := dataSize } es,
    totalCacheSize := total + dataSize }

/-- `clearExpiredCache`: delete every entry with
`now - entry.timestamp > cacheDuration * 1000`, subtract their sizes from the
running total, and return the number removed. -/
def clearExpiredCache (cacheDuration : Int) (now : Int) (st : CacheState) :
    Nat × CacheState :=
  let expired := st.entries.filter
    (fun p => decide (now - p.2.timestamp > cacheDuration * 1000))
  let kept := st.entries.filter
    (fun p => !(decide (now - p.2.timestamp > cacheDuration * 1000)))
  (expired.length,
   { entries := kept, totalCacheSize := st.totalCacheSize - sumSizes expired })

/-- The statistics record returned by `getCacheStats`. -/
structure CacheStats where
  entries : Nat
  totalSize : Int
  averageSize : Int
deriving DecidableEq, Repr

/-- JS `Math.round(num / den)` for positive `den`: half-up rounding. -/
def jsMathRound (num : Int) (den : Nat) : Int :=
  Rat.floor ((num : Rat) / (den : Rat) + 1 / 2)

/-- `getCacheStats` of `middleware.ts`. -/
def getCacheStats (st : CacheState) : CacheStats :=
  let n := st.entries.length
  { entries := n,
    totalSize := st.totalCacheSize,
    averageSize := if n > 0 then jsMathRound st.totalCacheSize n else 0 }

/-- `Number.isInteger` on a JS number modelled as a rational. -/
def jsIsInteger (q : Rat) : Bool := q.den == 1

/-- `clearCache` of `index.ts`: reject arguments that are not positive
integers with an `INVALID_CONFIG` error before touching the cache, otherwise
run `clearExpiredCache`. -/
def clearCache (cacheDuration : Rat) (now : Int) (st : CacheState) :
    Except AutoApiError (Nat × CacheState) :=
  if jsIsInteger cacheDuration = false ∨ cacheDuration < 1 then
    .error { message := "cacheDuration must be a positive integer",
             type := .INVALID_CONFIG, statusCode := none, cause := none }
  else
    .ok (clearExpiredCache cacheDuration.num now st)

/-- A placeholder `PageData` value used for concrete cache scenarios (the
cache operations never inspect the stored data). -/
def dummyPageData : PageData :=
  { path := "/a", timestamp := "", title := "", h1 := "", html := none,
    receiverUsername := none, contentLength := none, extractedAt := none,
    statusCode := none, headings := none, metaDescription := none }

/-! ### Configuration validation (`validateAndNormalizeConfig`) -/

/-- A JS runtime value as it may arrive in an untyped configuration field;
numbers are rationals so that `Number.isInteger` is meaningful. -/
inductive JsValue where
  | str (s : String)
  | num (q : Rat)
  | bool (b : Bool)
  | arr (xs : List JsValue)
  | obj (fields : List (String × JsValue))
  | null

/-- The raw `AutoApiConfig` options record. The four fields inspected by
validation are untyped JS values; the remaining fields are never
type-checked by the source and are carried at their declared TS types. -/
structure AutoApiConfig where
  enabled : Option Bool
  apiPrefix : Option JsValue
  excludePaths : Option JsValue
  additionalHeaders : Option JsValue
  enableCache : Option Bool
  cacheDuration : Option JsValue
  receiverUsername : Option String
  maxCacheSize : Option Int
  requestTimeout : Option Int

/-- The `Required<AutoApiConfig>` record returned on successful validation:
each field is the raw value with `??`-defaulting applied (the source does not
convert the validated values, it stores them as given). -/
structure NormalizedConfig where
  enabled : Bool
  apiPrefix : JsValue
  excludePaths : JsValue
  additionalHeaders : JsValue
  enableCache : Bool
  cacheDuration : JsValue
  receiverUsername : Option String
  maxCacheSize : Int
  requestTimeout : Int

/-- The check `typeof v !== 'string' || !v.startsWith('/')`. -/
def apiPrefixInvalid (v : JsValue) : Bool :=
  match v with
  | .str s => !(strStartsWith s "/")
  | _ => true

/-- The check `!Number.isInteger(v) || v < 60 || v > 86400`
(`Number.isInteger` is false on every non-number). -/
def cacheDurationInvalid (v : JsValue) : Bool :=
  match v with
  | .num q => !(q.den == 1 && decide ((60 : Rat) ≤ q) && decide (q ≤ (86400 : Rat)))
  | _ => true

/-- The check `!Array.isArray(v) || !v.every(p => typeof p === 'string')`. -/
def excludePathsInvalid (v : JsValue) : Bool :=
  match v with
  | .arr xs => !(xs.all (fun x => match x with | .str _ => true | _ => false))
  | _ => true

/-- The check `typeof v !== 'object' || v === null` (arrays and objects both
have `typeof` equal to `'object'`; `null` is rejected explicitly). -/
def additionalHeadersInvalid (v : JsValue) : Bool :=
  match v with
  | .obj _ => false
  | .arr _ => false
  | _ => true

/-- The violation messages accumulated by `validateAndNormalizeConfig`, in
check order; each of the four checks contributes at most one message and no
check is skipped. -/
def configViolations (config : AutoApiConfig) : List String :=
  (match config.apiPrefix with
   | some v => if apiPrefixInvalid v then
       ["apiPrefix must be a string starting with \"/\""] else []
   | none => []) ++
  (match config.cacheDuration with
   | some v => if cacheDurationInvalid v then
       ["cacheDuration must be an integer between 60 and 86400"] else []
   | none => []) ++
  (match config.excludePaths with
   | some v => if excludePathsInvalid v then
       ["excludePaths must be an array of strings"] else []
   | none => []) ++
  (match config.additionalHeaders with
   | some v => if additionalHeadersInvalid v then
       ["additionalHeaders must be an object"] else []
   | none => [])

/-- The fully-defaulted record built by the success branch of
`validateAndNormalizeConfig` (`raw ?? default` on every field). -/
def normalizeWithDefaults (config : AutoApiConfig) : NormalizedConfig :=
  { enabled := config.enabled.getD true,
    apiPrefix := (config.apiPrefix).getD (.str "/api"),
    excludePaths := (config.excludePaths).getD (.arr []),
    additionalHeaders := (config.additionalHeaders).getD (.obj []),
    enableCache := config.enableCache.getD false,
    cacheDuration := (config.cacheDuration).getD (.num 3600),
    receiverUsername := config.receiverUsername,
    maxCacheSize := config.maxCacheSize.getD 1048576,
    requestTimeout := config.requestTimeout.getD 5000 }

/-- `validateAndNormalizeConfig` of `middleware.ts`: run the four checks,
accumulate their messages, and either throw `INVALID_CONFIG` with the joined
list or return the record of defaults. -/
def validateAndNormalizeConfig (config : AutoApiConfig) :
    Except AutoApiError NormalizedConfig :=
  let errors := configViolations config
  if errors.length > 0 then
    .error { message := "Configuration validation failed: " ++
               String.intercalate ", " errors,
             type := .INVALID_CONFIG, statusCode := none, cause := none }
  else
    .ok (normalizeWithDefaults config)

/-! ### The extractor (`extractPageData`)

`cheerio.load` (a third-party HTML parser, an external collaborator of the
core) is modelled as producing a forest of DOM nodes with parser-normalized
lowercase tag names; the selection and extraction logic of
`extractPageData` is embedded over that forest. -/

/-- A DOM node as produced by the HTML parser: a text node or an element
with a (lowercase) tag, attributes, and children. -/
inductive HtmlNode where
  | text (s : String)
  | elem (tag : String) (attrs : List (String × String)) (children : List HtmlNode)

mutual

/-- cheerio `.text()` of one node: concatenated text of all descendants. -/
def textContent : HtmlNode → String
  | .text s => s
  | .elem _ _ cs => textContentList cs

/-- cheerio `.text()` over a list of nodes, in order. -/
def textContentList : List HtmlNode → String
  | [] => ""
  | n :: ns => textContent n ++ textContentList ns

end

mutual

/-- All element nodes satisfying `p`, in document (preorder) order — the
semantics of a cheerio tag selector. -/
def selectNode (p : HtmlNode → Bool) : HtmlNode → List HtmlNode
  | .text _ => []
  | .elem t a cs =>
    (if p (.elem t a cs) then [HtmlNode.elem t a cs] else []) ++ selectList p cs

/-- `selectNode` over a forest, in order. -/
def selectList (p : HtmlNode → Bool) : List HtmlNode → List HtmlNode
  | [] => []
  | n :: ns => selectNode p n ++ selectList p ns

end

/-- Tag-name selector predicate. -/
def isTag (t : String) : HtmlNode → Bool
  | .elem tag _ _ => tag == t
  | .text _ => false

/-- The selector `h1, h2, h3, h4, h5, h6`. -/
def isHeadingTag (n : HtmlNode) : Bool :=
  isTag "h1" n || isTag "h2" n || isTag "h3" n ||
    isTag "h4" n || isTag "h5" n || isTag "h6" n

/-- First value of the named attribute. -/
def getAttr (attrs : List (String × String)) (name : String) : Option String :=
  match attrs with
  | [] => none
  | (k, v) :: rest => if k == name then some v else getAttr rest name

/-- The selector `meta[name="description"]`. -/
def isMetaDescription : HtmlNode → Bool
  | .elem tag attrs _ => tag == "meta" && (getAttr attrs "name" == some "description")
  | .text _ => false

/-- Attribute of a node (cheerio `.attr`). -/
def nodeAttr (n : HtmlNode) (name : String) : Option String :=
  match n with
  | .elem _ attrs _ => getAttr attrs name
  | .text _ => none

/-- `parseInt($element.prop('tagName')?.substring(1) || '1')` for a heading
element: the digit after the leading `h`/`H` of the tag name. -/
def headingLevel (n : HtmlNode) : Nat :=
  match n with
  | .elem tag _ _ =>
    match tag.data with
    | [_, c] => if c.isDigit then c.toNat - '0'.toNat else 1
    | _ => 1
  | .text _ => 1

/-- cheerio `.text()` of a whole selection: the concatenation over every
matched element (not just the first). -/
def concatTexts (ns : List HtmlNode) : String :=
  ns.foldl (fun acc n => acc ++ textContent n) ""

/-- `extractPageData` of `middleware.ts`, over the parsed document `doc`
(the output of `cheerio.load html`); `now`/`nowIso` stand for `Date.now()`
and its ISO rendering at extraction time. -/
def extractPageData (doc : List HtmlNode) (html : String) (pagePath : String)
    (receiverUsername : Option String) (now : Int) (nowIso : String) : PageData :=
  let title := jsTrim (concatTexts (selectList (isTag "title") doc))
  let h1 := match (selectList (isTag "h1") doc).head? with
    | some n => jsTrim (textContent n)
    | none => ""
  let metaDescription := ((selectList isMetaDescription doc).head?).bind
    (fun n => Option.map jsTrim (nodeAttr n "content"))
  let headings := (selectList isHeadingTag doc).filterMap (fun n =>
    let text := jsTrim (textContent n)
    if text == "" then none
    else some { level := headingLevel n, text := text })
  { path := pagePath, timestamp := nowIso, title := title, h1 := h1,
    html := some html, receiverUsername := receiverUsername,
    contentLength := some html.data.length, extractedAt := some now,
    statusCode := some 200, headings := some headings,
    metaDescription := metaDescription }

/-! ### Content fetcher (`constructPageUrl`, `fetchPageContent`) -/

/-- The outcome of the in-flight network operation of one `fetch` call:
an origin response, an abort because the timeout fired first, or another
transport-level failure. -/
inductive FetchOutcome where
  | response (status : Int) (statusText : String) (body : String)
  | timeoutAbort
  | failure (message : String)

/-- The per-request environment of the fetch-and-extract path: values the
source reads from the inbound request and its external collaborators
(URL resolver, network, HTML parser, `JSON.stringify` length, clock). -/
structure FetchEnv where
  protocol : String
  host : Option String
  resolveUrl : String → String → String
  outcome : FetchOutcome
  parse : String → List HtmlNode
  stringifyLen : PageData → Nat
  now : Int
  nowIso : String

/-- `constructPageUrl` of `middleware.ts`: fail with `FETCH_ERROR`/400 when
the request carries no host header, otherwise resolve the page path against
`protocol//host`. -/
def constructPageUrl (env : FetchEnv) (pagePath : String) : Except Thrown String :=
  match env.host with
  | none => .error (.api { message := "Missing host header in request",
                           type := .FETCH_ERROR, statusCode := some 400,
                           cause := none })
  | some h => .ok (env.resolveUrl pagePath (env.protocol ++ "//" ++ h))

/-- `fetchPageContent` of `middleware.ts`: a 2xx response yields its body;
a non-2xx response throws `FETCH_ERROR` with the origin status code and
status text; an abort raised by the timeout throws `TIMEOUT_ERROR`/408; any
other transport failure is rethrown unwrapped. -/
def fetchPageContent (outcome : FetchOutcome) (timeout : Int) : Except Thrown String :=
  match outcome with
  | .response status statusText body =>
    if 200 ≤ status ∧ status ≤ 299 then
      .ok body
    else
      .error (.api { message := "HTTP " ++ toString status ++ ": " ++ statusText,
                     type := .FETCH_ERROR, statusCode := some status,
                     cause := none })
  | .timeoutAbort =>
    .error (.api { message := "Request timeout after " ++ toString timeout ++ "ms",
                   type := .TIMEOUT_ERROR, statusCode := some 408, cause := none })
  | .failure msg => .error (.generic msg)

/-! ### Orchestrator (`getPageData` and the middleware body) -/

/-- The `catch` block of `getPageData`: an `AutoApiError` is rethrown as-is,
anything else is wrapped as a `FETCH_ERROR` naming the page path. -/
def wrapThrown (pagePath : String) : Thrown → AutoApiError
  | .api e => e
  | .generic msg =>
    { message := "Failed to fetch page data for path: " ++ pagePath,
      type := .FETCH_ERROR, statusCode := none, cause := some msg }

/-- The `try` block of `getPageData` after a cache miss (or with caching
disabled): construct the URL, fetch, extract, and cache when enabled and the
data is small enough. The boolean records whether the network fetch was
issued. -/
def getPageDataFetch (enableCache : Bool) (receiverUsername : Option String)
    (maxCacheSize requestTimeout : Int) (env : FetchEnv) (pagePath : String)
    (st : CacheState) : Except AutoApiError PageData × CacheState × Bool :=
  match constructPageUrl env pagePath with
  | .error t => (.error (wrapThrown pagePath t), st, false)
  | .ok _ =>
    match fetchPageContent env.outcome requestTimeout with
    | .error t => (.error (wrapThrown pagePath t), st, true)
    | .ok htmlContent =>
      let extractedData := extractPageData (env.parse htmlContent) htmlContent
        pagePath receiverUsername env.now env.nowIso
      if enableCache && shouldCacheData env.stringifyLen extractedData maxCacheSize then
        (.ok extractedData,
         cachePageData env.stringifyLen pagePath extractedData env.now maxCacheSize st,
         true)
      else
        (.ok extractedData, st, true)

/-- `getPageData` of `middleware.ts`: on a cache hit the stored `PageData`
is returned with the *current* request's `receiverUsername` spread over the
cached one; otherwise the fetch-and-extract path runs. The boolean records
whether the network fetch was issued. -/
def getPageData (enableCache : Bool) (cacheDuration : Int)
    (receiverUsername : Option String) (maxCacheSize requestTimeout : Int)
    (env : FetchEnv) (pagePath : String) (st : CacheState) :
    Except AutoApiError PageData × CacheState × Bool :=
  if enableCache then
    match getCachedData pagePath cacheDuration env.now st with
    | (some cachedData, st1) =>
      (.ok { cachedData with receiverUsername := receiverUsername }, st1, false)
    | (none, st1) =>
      getPageDataFetch enableCache receiverUsername maxCacheSize requestTimeout
        env pagePath st1
  else
    getPageDataFetch enableCache receiverUsername maxCacheSize requestTimeout
      env pagePath st

/-- The three possible outcomes of the middleware body: pass-through
(`NextResponse.next()`), a JSON `PageData` response with the configured
additional headers, or a JSON error body with its status. -/
inductive MiddlewareResult where
  | next
  | jsonResponse (data : PageData) (status : Nat) (headers : List (String × String))
  | errorResponse (message : String) (type : AutoApiErrorType) (status : Int)

/-- The middleware returned by `withAutoApiMiddleware`, over an
already-validated configuration (its destructured fields are the
parameters): skip when disabled or the path misses the prefix, reject
invalid extracted paths with 400 `INVALID_CONFIG`, skip excluded paths,
otherwise run `getPageData` and convert errors via
`handleMiddlewareError`. The boolean records whether the network fetch was
issued. -/
def middlewareModel (enabled : Bool) ( apiPrefix : String)
    (excludePaths : List String) (enableCache : Bool) (cacheDuration : Int)
    (additionalHeaders : List (String × String))
    (receiverUsername : Option String) (maxCacheSize requestTimeout : Int)
    (env : FetchEnv) (pathname : String) (st : CacheState) :
    MiddlewareResult × CacheState × Bool :=
  if !enabled then (.next, st, false)
  else if !(strStartsWith pathname apiPrefix) then (.next, st, false)
  else
    let pagePath := extractPagePath pathname apiPrefix
    if !(isValidPath pagePath) then
      (.errorResponse "Invalid path format" .INVALID_CONFIG 400, st, false)
    else if isPathExcluded pagePath excludePaths then
      (.next, st, false)
    else
      match getPageData enableCache cacheDuration receiverUsername maxCacheSize
        requestTimeout env pagePath st with
      | (.ok d, st1, f) => (.jsonResponse d 200 additionalHeaders, st1, f)
      | (.error e, st1, f) =>
        (.errorResponse e.message e.type (e.statusCode.getD 500), st1, f)

/-! ## Claims -/

/-- C1: the claimed invariant — the running total equals the sum of the
recorded sizes of the stored entries, with a second put for the same path
replacing the entry and its size accounting — is violated by the source:
`cachePageData` adds the new entry's size to `totalCacheSize` without
subtracting the size of the entry it replaces. After two puts for the same
path (each of size 10, limit 1,000,000, so no eviction runs), the cache
holds a single entry of recorded size 10 while the running total is 20. -/
theorem c1_second_put_breaks_size_accounting :
    (cachePageData (fun _ => 10) "/a" dummyPageData 5 1000000
        (cachePageData (fun _ => 10) "/a" dummyPageData 0 1000000 emptyCache)).totalCacheSize = 20
    ∧ sumSizes (cachePageData (fun _ => 10) "/a" dummyPageData 5 1000000
        (cachePageData (fun _ => 10) "/a" dummyPageData 0 1000000 emptyCache)).entries = 10
    ∧ (cachePageData (fun _ => 10) "/a" dummyPageData 5 1000000
        (cachePageData (fun _ => 10) "/a" dummyPageData 0 1000000 emptyCache)).entries.length = 1 := by
  decide

/-- C2: on every put, eviction removes entries strictly in insertion order
(the eviction loop returns a suffix of the entry list, having dropped the
`k` oldest entries and subtracted exactly their sizes) and stops as soon as
the cache is empty or the running total plus the new size fits the limit;
and concretely, inserting A (100 bytes) then B (100 bytes) with a 150-byte
limit evicts A, keeps B, and leaves the total at 100. -/
theorem c2_fifo_eviction :
    (∀ (dataSize maxCacheSize : Int) (es : List (String × CachedPageData)) (total : Int),
      ∃ k, evictEntries dataSize maxCacheSize es total
            = (es.drop k, total - sumSizes (es.take k))
          ∧ (es.drop k = [] ∨ (total - sumSizes (es.take k)) + dataSize ≤ maxCacheSize))
    ∧ ((cachePageData (fun _ => 100) "/b" dummyPageData 1 150
          (cachePageData (fun _ => 100) "/a" dummyPageData 0 150 emptyCache)).entries.map
            Prod.fst = ["/b"]
       ∧ (cachePageData (fun _ => 100) "/b" dummyPageData 1 150
            (cachePageData (fun _ => 100) "/a" dummyPageData 0 150 emptyCache)).totalCacheSize
          = 100) := by
  refine ⟨?_, by decide⟩
  intro dataSize maxCacheSize es
  induction es with
  | nil =>
    intro total
    exact ⟨0, by simp [evictEntries, sumSizes], Or.inl rfl⟩
  | cons e rest ih =>
    intro total
    by_cases h : total + dataSize > maxCacheSize
    · obtain ⟨k, hk, hcond⟩ := ih (total - e.2.size)
      refine ⟨k + 1, ?_, ?_⟩
      · have hsub : total - sumSizes ((e :: rest).take (k + 1))
            = total - e.2.size - sumSizes (rest.take k) := by
          simp [List.take_succ_cons, sumSizes]
          omega
        rw [List.drop_succ_cons, hsub]
        simpa [evictEntries, h] using hk
      · have hsub : total - sumSizes ((e :: rest).take (k + 1))
            = total - e.2.size - sumSizes (rest.take k) := by
          simp [List.take_succ_cons, sumSizes]
          omega
        rw [List.drop_succ_cons, hsub]
        exact hcond
    · refine ⟨0, by simp [evictEntries, h, sumSizes], Or.inr ?_⟩
      simp [sumSizes]
      omega

/-- C3 counterexample: the claim says a lookup at elapsed time greater than
or equal to `ttlSeconds * 1000` is a miss, but at elapsed time exactly
`60 * 1000` (entry inserted at 0, lookup at 60000, TTL 60 s) the source's
strict comparison `now - timestamp > ttl * 1000` is false, so the lookup is
a hit and the entry stays in place. -/
theorem c3_boundary_is_a_hit :
    (60000 : Int) - 0 ≥ 60 * 1000
    ∧ (getCachedData "/a" 60 60000
        { entries := [("/a", { data := dummyPageData, timestamp := 0, size := 5 })],
          totalCacheSize := 5 }).1 = some dummyPageData
    ∧ (getCachedData "/a" 60 60000
        { entries := [("/a", { data := dummyPageData, timestamp := 0, size := 5 })],
          totalCacheSize := 5 }).2
      = { entries := [("/a", { data := dummyPageData, timestamp := 0, size := 5 })],
          totalCacheSize := 5 } := by
  exact ⟨by norm_num, by rfl, by rfl⟩

/-- C3 amended: for every stored entry, a get is a hit exactly when
`now - insertedAt ≤ ttlSeconds * 1000`; at elapsed time strictly greater
than the TTL the get returns a miss and the expired entry is deleted, with
its recorded size removed from the running total. -/
theorem c3_lazy_expiry (st : CacheState) (key : String) (ttl now : Int)
    (entry : CachedPageData) (h : mapGet key st.entries = some entry) :
    ((getCachedData key ttl now st).1 ≠ none ↔ now - entry.timestamp ≤ ttl * 1000)
    ∧ (now - entry.timestamp ≤ ttl * 1000 →
        getCachedData key ttl now st = (some entry.data, st))
    ∧ (now - entry.timestamp > ttl * 1000 →
        getCachedData key ttl now st
          = (none, { entries := mapDelete key st.entries,
                     totalCacheSize := st.totalCacheSize - entry.size })) := by
  by_cases hc : now - entry.timestamp > ttl * 1000
  · have hg : getCachedData key ttl now st
        = (none, { entries := mapDelete key st.entries,
                   totalCacheSize := st.totalCacheSize - entry.size }) := by
      simp [getCachedData, h, hc]
    refine ⟨?_, fun hle => absurd hle (by omega), fun _ => hg⟩
    rw [hg]
    simp
    omega
  · have hg : getCachedData key ttl now st = (some entry.data, st) := by
      simp [getCachedData, h, hc]
    refine ⟨?_, fun _ => hg, fun hgt => absurd hgt hc⟩
    rw [hg]
    simp
    omega

/-- C3 witness: a fresh entry (inserted at 0, lookup at 1000, TTL 60 s) is
returned unchanged. -/
theorem c3_lazy_expiry_witness :
    getCachedData "/a" 60 1000
      { entries := [("/a", { data := dummyPageData, timestamp := 0, size := 5 })],
        totalCacheSize := 5 }
      = (some dummyPageData,
         { entries := [("/a", { data := dummyPageData, timestamp := 0, size := 5 })],
           totalCacheSize := 5 }) :=
  (c3_lazy_expiry
    { entries := [("/a", { data := dummyPageData, timestamp := 0, size := 5 })],
      totalCacheSize := 5 }
    "/a" 60 1000 { data := dummyPageData, timestamp := 0, size := 5 }
    (by rfl)).2.1 (by norm_num)

/-- C4 counterexample: with `excludePaths = ["/admin/*"]` the claim says
`/admin` itself is not excluded (it does not start with the pattern minus
its trailing `*`, the prefix `/admin/`), but the source strips the trailing
`/*` (two characters) and `/admin` starts with `/admin`, so it is
excluded. -/
theorem c4_admin_is_excluded :
    isPathExcluded "/admin" ["/admin/*"] = true
    ∧ strStartsWith "/admin" "/admin/" = false := by
  decide

/-- C4 amended: a pattern ending in `/*` excludes exactly the paths starting
with the pattern minus its trailing `/*` (the prefix without the trailing
slash), so `/admin/*` excludes `/admin/x`, `/admin/x/y` and `/admin` itself
(and any other path starting with `/admin`); a pattern not ending in `/*`
matches only on exact equality. -/
theorem c4_exclusion_semantics (path pat : String) :
    (strEndsWith pat "/*" = true →
      (isPathExcluded path [pat] = true ↔ strStartsWith path (strDropRight pat 2) = true))
    ∧ (strEndsWith pat "/*" = false →
      (isPathExcluded path [pat] = true ↔ path = pat)) := by
  constructor
  · intro hw
    simp [isPathExcluded, hw]
  · intro hw
    simp [isPathExcluded, hw]

/-- C4 witness: `/admin/x` is excluded by the wildcard pattern `/admin/*`. -/
theorem c4_exclusion_semantics_witness :
    isPathExcluded "/admin/x" ["/admin/*"] = true :=
  ((c4_exclusion_semantics "/admin/x" "/admin/*").1 (by decide)).mpr (by decide)

/-- C5: on every cache hit, the returned `PageData` is the cached record
with the current request's `receiverUsername` spread over it, so its
receiver identifier is the current config's, never the stored one; the
fetch is not issued and the cache is untouched. -/
theorem c5_receiver_overlay_on_hit (st : CacheState) (key : String)
    (ttl : Int) (entry : CachedPageData) (currentRu : Option String)
    (maxCacheSize requestTimeout : Int) (env : FetchEnv)
    (h : mapGet key st.entries = some entry)
    (hfresh : ¬(env.now - entry.timestamp > ttl * 1000)) :
    getPageData true ttl currentRu maxCacheSize requestTimeout env key st
      = (.ok { entry.data with receiverUsername := currentRu }, st, false)
    ∧ ({ entry.data with receiverUsername := currentRu } : PageData).receiverUsername
      = currentRu := by
  constructor
  · simp [getPageData, getCachedData, h, hfresh]
  · rfl

/-- A concrete fetch environment for witnesses (host present). -/
def envWithHost : FetchEnv :=
  { protocol := "https:", host := some "example.com",
    resolveUrl := fun path base => base ++ path,
    outcome := .response 200 "OK" "", parse := fun _ => [],
    stringifyLen := fun _ => 0, now := 1000, nowIso := "1970-01-01T00:00:01.000Z" }

/-- The cached record of the C5 scenario: stored under receiver "A". -/
def cachedUnderA : PageData := { dummyPageData with receiverUsername := some "A" }

/-- C5 witness: an entry cached with `receiverUsername = "A"`, hit by a
request configured with `receiverUsername = "B"`, yields a `PageData`
carrying `"B"`. -/
theorem c5_receiver_overlay_on_hit_witness :
    getPageData true 60 (some "B") 1048576 5000 envWithHost "/p"
        { entries := [("/p", { data := cachedUnderA, timestamp := 0, size := 5 })],
          totalCacheSize := 5 }
      = (.ok { cachedUnderA with receiverUsername := some "B" },
         { entries := [("/p", { data := cachedUnderA, timestamp := 0, size := 5 })],
           totalCacheSize := 5 }, false)
    ∧ ({ cachedUnderA with receiverUsername := some "B" } : PageData).receiverUsername
      = some "B" :=
  c5_receiver_overlay_on_hit
    { entries := [("/p", { data := cachedUnderA, timestamp := 0, size := 5 })],
      totalCacheSize := 5 }
    "/p" 60 { data := cachedUnderA, timestamp := 0, size := 5 } (some "B")
    1048576 5000 envWithHost (by rfl) (by norm_num [envWithHost])

/-- C6: whenever the middleware is enabled and the request matches the API
prefix but the extracted content path contains one of `<>:"|?*`, or exceeds
2000 characters, or does not start with `/`, the middleware returns the
400 `INVALID_CONFIG` error response, leaves the cache untouched, and never
issues the network fetch. -/
theorem c6_invalid_path_rejected_before_fetch ( apiPrefix : String)
    (excludePaths : List String) (enableCache : Bool) (cacheDuration : Int)
    (additionalHeaders : List (String × String)) (receiverUsername : Option String)
    (maxCacheSize requestTimeout : Int) (env : FetchEnv) (pathname : String)
    (st : CacheState)
    (hpre : strStartsWith pathname apiPrefix = true)
    (hbad : containsDangerousChar (extractPagePath pathname apiPrefix) = true
            ∨ 2000 < (extractPagePath pathname apiPrefix).data.length
            ∨ strStartsWith (extractPagePath pathname apiPrefix) "/" = false) :
    middlewareModel true apiPrefix excludePaths enableCache cacheDuration
        additionalHeaders receiverUsername maxCacheSize requestTimeout env
        pathname st
      = (.errorResponse "Invalid path format" .INVALID_CONFIG 400, st, false) := by
  have hval : isValidPath (extractPagePath pathname apiPrefix) = false := by
    rcases hbad with hb | hb | hb
    · simp [isValidPath, hb]
    · have hb2 : 2000 < (extractPagePath pathname apiPrefix).length := hb
      simp [isValidPath]
      intro _ _
      omega
    · simp [isValidPath, hb]
  simp [middlewareModel, hpre, hval]

/-- C6 witness: with prefix `/api`, the request `/api/a?b` extracts the
content path `/a?b`, which contains `?`, and is rejected with
400 `INVALID_CONFIG` without reaching the fetcher. -/
theorem c6_invalid_path_rejected_before_fetch_witness :
    middlewareModel true "/api" [] true 3600 [] none 1048576 5000 envWithHost
        "/api/a?b" emptyCache
      = (.errorResponse "Invalid path format" .INVALID_CONFIG 400, emptyCache, false) :=
  c6_invalid_path_rejected_before_fetch "/api" [] true 3600 [] none 1048576 5000
    envWithHost "/api/a?b" emptyCache (by decide) (Or.inl (by decide))

/-- C7: validation runs all four checks, accumulating one violation message
per failed check (in check order, none skipped); when any violation exists
it fails with `INVALID_CONFIG` carrying the joined list and no config is
produced, and otherwise it returns the record with every optional field
defaulted. -/
theorem c7_validate_and_normalize (config : AutoApiConfig) :
    (configViolations config = [] →
      validateAndNormalizeConfig config = .ok (normalizeWithDefaults config))
    ∧ (configViolations config ≠ [] →
      validateAndNormalizeConfig config
        = .error { message := "Configuration validation failed: "
                     ++ String.intercalate ", " (configViolations config),
                   type := .INVALID_CONFIG, statusCode := none, cause := none }) := by
  constructor
  · intro h
    simp [validateAndNormalizeConfig, h]
  · intro h
    have hl : 0 < (configViolations config).length := List.length_pos.mpr h
    simp [validateAndNormalizeConfig, hl]

/-- A raw configuration failing both the `apiPrefix` check and the
`additionalHeaders` check (the latter with `null`). -/
def rawConfigBad : AutoApiConfig :=
  { enabled := none, apiPrefix := some (.str "api"), excludePaths := none,
    additionalHeaders := some .null, enableCache := none, cacheDuration := none,
    receiverUsername := none, maxCacheSize := none, requestTimeout := none }

/-- The all-absent raw configuration. -/
def rawConfigEmpty : AutoApiConfig :=
  { enabled := none, apiPrefix := none, excludePaths := none,
    additionalHeaders := none, enableCache := none, cacheDuration := none,
    receiverUsername := none, maxCacheSize := none, requestTimeout := none }

/-- C7 witness: a config violating two independent checks fails with both
messages joined (no short-circuit), and the all-absent config succeeds with
every field defaulted. -/
theorem c7_validate_and_normalize_witness :
    validateAndNormalizeConfig rawConfigBad
      = .error { message := "Configuration validation failed: "
                   ++ String.intercalate ", " (configViolations rawConfigBad),
                 type := .INVALID_CONFIG, statusCode := none, cause := none }
    ∧ configViolations rawConfigBad
      = ["apiPrefix must be a string starting with \"/\"",
         "additionalHeaders must be an object"]
    ∧ validateAndNormalizeConfig rawConfigEmpty
      = .ok (normalizeWithDefaults rawConfigEmpty) :=
  ⟨(c7_validate_and_normalize rawConfigBad).2 (by decide),
   by decide,
   (c7_validate_and_normalize rawConfigEmpty).1 (by decide)⟩

/-- Right-fold rendering of a selection's concatenated text, used as the
specification-side formulation for C8. -/
def textsConcatR (ns : List HtmlNode) : String :=
  ns.foldr (fun n acc => textContent n ++ acc) ""

/-- The left fold of `concatTexts` agrees with the right-fold formulation. -/
theorem concatTexts_go (ns : List HtmlNode) :
    ∀ acc : String, ns.foldl (fun acc n => acc ++ textContent n) acc
      = acc ++ textsConcatR ns := by
  induction ns with
  | nil =>
    intro acc
    simp [textsConcatR]
  | cons n ns ih =>
    intro acc
    simp only [List.foldl_cons, textsConcatR, List.foldr_cons]
    rw [ih (acc ++ textContent n)]
    simp [textsConcatR, String.append_assoc]

/-- `concatTexts` equals the right-fold formulation. -/
theorem concatTexts_eq (ns : List HtmlNode) : concatTexts ns = textsConcatR ns := by
  have h := concatTexts_go ns ""
  simpa [concatTexts] using h

/-- Spec-side formulation of `firstHeading`: the trimmed text of the first
`<h1>` element, empty when there is none. -/
def claimFirstHeading (doc : List HtmlNode) : String :=
  ((selectList (isTag "h1") doc).head?.map (fun n => jsTrim (textContent n))).getD ""

/-- Spec-side formulation of `metaDescription`: the content attribute of the
first `meta[name="description"]`, trimmed, absent when there is none. -/
def claimMetaDescription (doc : List HtmlNode) : Option String :=
  Option.map jsTrim
    ((selectList isMetaDescription doc).head?.bind (fun n => nodeAttr n "content"))

/-- Spec-side formulation of the heading outline: every `h1`–`h6` element in
document order, with the level read from the tag-name digit and the trimmed
text, entries with empty trimmed text omitted. -/
def claimHeadings (doc : List HtmlNode) : List Heading :=
  ((selectList isHeadingTag doc).map
    (fun n => { level := headingLevel n, text := jsTrim (textContent n) })).filter
    (fun h => !(h.text == ""))

/-- The extractor's `filterMap` heading loop equals the map-then-filter
specification formulation. -/
theorem headings_filterMap_eq (ns : List HtmlNode) :
    (ns.filterMap (fun n =>
      let text := jsTrim (textContent n)
      if text == "" then none
      else some ({ level := headingLevel n, text := text } : Heading)))
    = ((ns.map (fun n =>
        ({ level := headingLevel n, text := jsTrim (textContent n) } : Heading))).filter
        (fun h => !(h.text == ""))) := by
  induction ns with
  | nil => rfl
  | cons n ns ih =>
    simp only [List.filterMap_cons, List.map_cons, List.filter_cons]
    cases hc : (jsTrim (textContent n) == "") <;>
      · simp [hc]
        simpa using ih

/-- C8 counterexample: on a document with two `<title>` elements holding
`" A "` and `"B"`, the claim's value — the text content of the first
`<title>`, `" A "` — differs from what the extractor produces: cheerio's
`.text()` concatenates the text of *all* matched title elements and the
source trims it, yielding `"A B"`. -/
theorem c8_title_not_first_untrimmed :
    (extractPageData
        [.elem "title" [] [.text " A "], .elem "title" [] [.text "B"]]
        "" "/p" none 0 "t").title = "A B"
    ∧ textContent (HtmlNode.elem "title" [] [.text " A "]) = " A "
    ∧ (" A " : String) ≠ "A B" := by
  decide

/-- C8 amended: `title` is the trimmed concatenation of the text content of
*all* `<title>` elements in document order (empty if none); `firstHeading`
is the trimmed text of the first `<h1>` (empty if none); `metaDescription`
is the trimmed `content` attribute of the first `meta[name="description"]`
(absent if none); and `headings` lists all `h1`–`h6` elements in document
order with the level taken from the tag-name digit and trimmed text,
omitting elements whose trimmed text is empty. -/
theorem c8_extraction_fields (doc : List HtmlNode) (html : String)
    (pagePath : String) (ru : Option String) (now : Int) (iso : String) :
    (extractPageData doc html pagePath ru now iso).title
      = jsTrim (textsConcatR (selectList (isTag "title") doc))
    ∧ (extractPageData doc html pagePath ru now iso).h1 = claimFirstHeading doc
    ∧ (extractPageData doc html pagePath ru now iso).metaDescription
      = claimMetaDescription doc
    ∧ (extractPageData doc html pagePath ru now iso).headings
      = some (claimHeadings doc) := by
  refine ⟨?_, ?_, ?_, ?_⟩
  · simp [extractPageData, concatTexts_eq]
  · cases hh : (selectList (isTag "h1") doc).head? <;>
      simp [extractPageData, claimFirstHeading, hh]
  · cases hm : (selectList isMetaDescription doc).head? <;>
      simp [extractPageData, claimMetaDescription, hm]
  · simpa [extractPageData, claimHeadings]
      using headings_filterMap_eq (selectList isHeadingTag doc)

/-- C9: the fetcher's three claimed failure modes. A timeout abort fails
with `TIMEOUT_ERROR`/408; a non-2xx origin response fails with
`FETCH_ERROR` carrying the origin status code and status text; and with no
host header available, the fetch path fails with `FETCH_ERROR`/400 without
issuing the network request. -/
theorem c9_fetcher_failure_modes :
    (∀ timeout : Int,
      fetchPageContent .timeoutAbort timeout
        = .error (.api { message := "Request timeout after " ++ toString timeout ++ "ms",
                         type := .TIMEOUT_ERROR, statusCode := some 408, cause := none }))
    ∧ (∀ (status : Int) (statusText body : String) (timeout : Int),
        ¬(200 ≤ status ∧ status ≤ 299) →
        fetchPageContent (.response status statusText body) timeout
          = .error (.api { message := "HTTP " ++ toString status ++ ": " ++ statusText,
                           type := .FETCH_ERROR, statusCode := some status,
                           cause := none }))
    ∧ (∀ (enableCache : Bool) (ru : Option String)
        (maxCacheSize requestTimeout : Int) (env : FetchEnv) (pagePath : String)
        (st : CacheState),
        env.host = none →
        getPageDataFetch enableCache ru maxCacheSize requestTimeout env pagePath st
          = (.error { message := "Missing host header in request",
                      type := .FETCH_ERROR, statusCode := some 400, cause := none },
             st, false)) := by
  refine ⟨fun _ => rfl, ?_, ?_⟩
  · intro status statusText body timeout h
    simp [fetchPageContent, h]
  · intro ec ru mc rt env pagePath st hhost
    simp [getPageDataFetch, constructPageUrl, hhost, wrapThrown]

/-- A concrete environment whose request carries no host header. -/
def envNoHost : FetchEnv := { envWithHost with host := none }

/-- C9 witness: the three failure modes at concrete inputs — an abort with a
5000 ms budget, a 404 response, and a request without a host header. -/
theorem c9_fetcher_failure_modes_witness :
    fetchPageContent .timeoutAbort 5000
      = .error (.api { message := "Request timeout after " ++ toString (5000 : Int) ++ "ms",
                       type := .TIMEOUT_ERROR, statusCode := some 408, cause := none })
    ∧ fetchPageContent (.response 404 "Not Found" "") 5000
      = .error (.api { message := "HTTP " ++ toString (404 : Int) ++ ": " ++ "Not Found",
                       type := .FETCH_ERROR, statusCode := some 404, cause := none })
    ∧ getPageDataFetch false none 1048576 5000 envNoHost "/p" emptyCache
      = (.error { message := "Missing host header in request",
                  type := .FETCH_ERROR, statusCode := some 400, cause := none },
         emptyCache, false) :=
  ⟨c9_fetcher_failure_modes.1 5000,
   c9_fetcher_failure_modes.2.1 404 "Not Found" "" 5000 (by norm_num),
   c9_fetcher_failure_modes.2.2 false none 1048576 5000 envNoHost "/p" emptyCache rfl⟩

/-- C10: `clearCache` throws `INVALID_CONFIG` on every argument that is not
a positive integer, without touching the cache, and on every
positive-integer argument runs `clearExpiredCache`, whose returned count is
the number of entries with `now - timestamp > cacheDuration * 1000`. -/
theorem c10_clearCache_guard (q : Rat) (now : Int) (st : CacheState) :
    (¬(q.den = 1 ∧ 1 ≤ q) →
      clearCache q now st
        = .error { message := "cacheDuration must be a positive integer",
                   type := .INVALID_CONFIG, statusCode := none, cause := none })
    ∧ (q.den = 1 → 1 ≤ q →
      clearCache q now st = .ok (clearExpiredCache q.num now st))
    ∧ (clearExpiredCache q.num now st).1
      = (st.entries.filter
          (fun p => decide (now - p.2.timestamp > q.num * 1000))).length := by
  refine ⟨?_, ?_, rfl⟩
  · intro h
    have hcond : jsIsInteger q = false ∨ q < 1 := by
      by_cases hd : q.den = 1
      · exact Or.inr (not_le.mp (fun hle => h ⟨hd, hle⟩))
      · exact Or.inl (by simp [jsIsInteger, hd])
    unfold clearCache
    rw [if_pos hcond]
  · intro hd hle
    have hcond : ¬(jsIsInteger q = false ∨ q < 1) := by
      rintro (hf | hlt)
      · rw [jsIsInteger] at hf
        simp [hd] at hf
      · exact absurd hle (not_le.mpr hlt)
    unfold clearCache
    rw [if_neg hcond]

/-- A cache holding one long-expired entry. -/
def stOneExpired : CacheState :=
  { entries := [("/a", { data := dummyPageData, timestamp := 0, size := 5 })],
    totalCacheSize := 5 }

/-- C10 witness: `clearCache 0` (an integer below 1) is rejected, and
`clearCache 3600` at a time far past expiry removes the one expired entry
and reports count 1. -/
theorem c10_clearCache_guard_witness :
    clearCache 0 0 emptyCache
      = .error { message := "cacheDuration must be a positive integer",
                 type := .INVALID_CONFIG, statusCode := none, cause := none }
    ∧ clearCache 3600 10000000 stOneExpired
      = .ok (1, { entries := [], totalCacheSize := 0 }) :=
  ⟨(c10_clearCache_guard 0 0 emptyCache).1 (by norm_num),
   ((c10_clearCache_guard 3600 10000000 stOneExpired).2.1 (by norm_num)
     (by norm_num)).trans (by rfl)⟩

end ByteScout
